import Mathlib

/-!
Verification development for the good-news social feed application
(Express + Knex + PostgreSQL, repository with three near-duplicate
iterations of the same app: iteration A = first half of index.js,
iteration B = second half of index.js, iteration C = the unnamed
full-app file).

The route handlers are embedded shallowly as pure functions over an
explicit database state.  The external sentiment analyzer and the
bcrypt password check are black boxes per the specification, so they
are passed to the handlers as function parameters.  Rendering a view
is modelled as a Response carrying the view name and the error_message
field; the other locals passed to a render are pure reads of the
unchanged database state and are elided.
-/

/-! ## JavaScript string helpers -/

/-- The character-list form of the JS String.prototype.trim used by the
handlers: drop leading and trailing whitespace. -/
def jsTrim (cs : List Char) : List Char :=
  ((cs.dropWhile Char.isWhitespace).reverse.dropWhile Char.isWhitespace).reverse

/-- String form of jsTrim. -/
def jsTrimStr (s : String) : String := String.mk (jsTrim s.toList)

/-- The emptiness test used on post and reply bodies:
JS !subtext || subtext.trim().length === 0.  For a string body the
first disjunct is subsumed by the second. -/
def jsEmpty (s : String) : Bool := (jsTrim s.toList).isEmpty

/-- Decides whether the first list is a prefix of the second. -/
def isPrefixChars : List Char → List Char → Bool
  | [], _ => true
  | _ :: _, [] => false
  | a :: as, b :: bs => a == b && isPrefixChars as bs

/-- Decides whether the first list occurs contiguously inside the second. -/
def containsChars (needle : List Char) : List Char → Bool
  | [] => isPrefixChars needle []
  | hay@(_ :: rest) => isPrefixChars needle hay || containsChars needle rest

/-- Lower-cases every character; the embedding of SQL lower(). -/
def lowerChars (cs : List Char) : List Char := cs.map Char.toLower

/-- Case-insensitive substring containment: the embedding of the SQL
ILIKE pattern with a percent sign on both sides of the query. -/
def containsCI (q hay : String) : Bool :=
  containsChars (lowerChars q.toList) (lowerChars hay.toList)

/-- The embedding of JS req.path.startsWith(pat). -/
def startsWithStr (s pat : String) : Bool := isPrefixChars pat.toList s.toList

/-- JS value || default for an optional string (absent and empty are falsy). -/
def jsOrStr (o : Option String) (d : String) : String :=
  match o with
  | none => d
  | some s => if s == "" then d else s

/-! ## Data model: the persisted schema -/

/-- A row of the users table. -/
structure UserRow where
  userid : Nat
  userfirstname : String
  userlastname : String
  useremail : String
  userpassword : String
  manager : Bool
deriving DecidableEq

/-- A row of the submissions table.  The author column is nullable
(authors can be deleted). -/
structure SubmissionRow where
  subid : Nat
  userid : Option Nat
  subtext : String
  subnegativestatus : Bool
  subdate : Nat
deriving DecidableEq

/-- A row of the replies table. -/
structure ReplyRow where
  replyid : Nat
  subid : Nat
  userid : Option Nat
  replytext : String
  replynegativestatus : Bool
  replydate : Nat
deriving DecidableEq

/-- A row of the subreactions table; the schema has a unique index on
(subid, userid). -/
structure ReactionRow where
  subid : Nat
  userid : Nat
  reactionid : Nat
  reactiondate : Nat
deriving DecidableEq

/-- The database state. -/
structure DB where
  users : List UserRow
  submissions : List SubmissionRow
  replies : List ReplyRow
  subreactions : List ReactionRow
deriving DecidableEq

/-- The fields of req.session.user that the handlers read. -/
structure SessionUser where
  userid : Nat
  manager : Bool
deriving DecidableEq

/-- The session attached to a request. -/
structure Session where
  isLoggedIn : Bool
  user : SessionUser
deriving DecidableEq

/-- The response a handler produces: an EJS render (view name plus the
error_message local), an HTTP redirect, or an explicit status send. -/
inductive Response where
  | render (view : String) (error_message : String)
  | redirect (location : String)
  | httpStatus (code : Nat) (body : String)
deriving DecidableEq

/-- True when a render response carries the empty-content message. -/
def mentionsEmpty (r : Response) : Bool :=
  match r with
  | Response.render _ m => containsCI "cannot be empty" m
  | _ => false

/-- The route string of the single-post page, JS /post/(id). -/
def postPath (subId : Nat) : String := "/post/" ++ toString subId

/-- The single-post page route with the negative-reply error flag,
JS /post/(id)?error=negative. -/
def postPathNeg (subId : Nat) : String :=
  "/post/" ++ toString subId ++ "?error=negative"

/-- Redirect to req.get("Referrer") || "/feed". -/
def redirectBack (referrer : Option String) : Response :=
  Response.redirect (jsOrStr referrer "/feed")

/-! ## Session/auth gate (identical in all three iterations) -/

/-- The outcome of the auth middleware: fall through to the route
handlers, or answer the request itself. -/
inductive GateResult where
  | next
  | respond (r : Response)
deriving DecidableEq

/-- The public-path allowlist of the login middleware. -/
def publicPaths : List String := ["/", "/feed", "/login", "/register", "/logout"]

/-- The login middleware: static assets and /post/ reads pass, paths on
the allowlist pass, logged-in sessions pass, and everything else is
answered with a login-view render carrying an error message. -/
def authGate (path : String) (isLoggedIn : Bool) : GateResult :=
  if startsWithStr path "/public" then GateResult.next
  else if startsWithStr path "/post/" then GateResult.next
  else if publicPaths.contains path then GateResult.next
  else if isLoggedIn then GateResult.next
  else GateResult.respond
    (Response.render "login" "Please log in to access that page")

/-! ## Login (POST /login) -/

/-- POST /login of index.js (both iterations).  The pgcrypto check
userpassword::text = crypt(?, userpassword::text) is the black-box
verify parameter; the route renders the same generic message on any
zero-row result. -/
def loginA (verify : String → String → Bool) (email password : String)
    (db : DB) : Response :=
  if email == "" || password == "" then
    Response.render "login" "Email and password required"
  else if (db.users.filter
      (fun u => u.useremail == email && verify password u.userpassword)).length
      > 0 then
    Response.redirect "/feed"
  else
    Response.render "login" "Invalid login"

/-- POST /login of the unnamed full-app iteration: no emptiness check,
and success requires exactly one matching row. -/
def loginC (verify : String → String → Bool) (email password : String)
    (db : DB) : Response :=
  if (db.users.filter
      (fun u => u.useremail == email && verify password u.userpassword)).length
      = 1 then
    Response.redirect "/feed"
  else
    Response.render "login" "Invalid login"

/-! ## New post (POST /newpost) -/

/-- POST /newpost of iteration A (index.js first half): login check,
emptiness check, sentiment filter, then insert with
subnegativestatus false and a server-assigned timestamp.  The fresh
subid is assigned by the database and passed as a parameter. -/
def newpostA (score : String → Int) (sess : Session) (subtext : String)
    (db : DB) (now fresh : Nat) : DB × Response :=
  if !sess.isLoggedIn then (db, Response.redirect "/login")
  else if jsEmpty subtext then
    (db, Response.render "newPost" "Post content cannot be empty.")
  else if score subtext < 0 then
    (db, Response.render "newPost"
      "Oops! We only allow Good News here. Your post was detected as negative.")
  else
    ({ db with submissions := db.submissions ++
        [⟨fresh, some sess.user.userid, subtext, false, now⟩] },
     Response.redirect "/feed")

/-- POST /newpost of iteration B (index.js second half): login check and
emptiness check only; the sentiment filter is not implemented and the
insert happens for every nonempty text. -/
def newpostB (sess : Session) (subtext : String) (db : DB)
    (now fresh : Nat) : DB × Response :=
  if !sess.isLoggedIn then (db, Response.redirect "/login")
  else if jsEmpty subtext then
    (db, Response.render "newPost" "Post content cannot be empty.")
  else
    ({ db with submissions := db.submissions ++
        [⟨fresh, some sess.user.userid, subtext, false, now⟩] },
     Response.redirect "/feed")

/-- POST /newpost of the unnamed full-app iteration: no in-handler login
check (the middleware guards it), emptiness check, sentiment filter,
then the insert. -/
def newpostC (score : String → Int) (sess : Session) (subtext : String)
    (db : DB) (now fresh : Nat) : DB × Response :=
  if jsEmpty subtext then
    (db, Response.render "newPost" "Post content cannot be empty.")
  else if score subtext < 0 then
    (db, Response.render "newPost" "Oops! Only good news allowed.")
  else
    ({ db with submissions := db.submissions ++
        [⟨fresh, some sess.user.userid, subtext, false, now⟩] },
     Response.redirect "/feed")

/-! ## Reply (POST /reply/:id) -/

/-- POST /reply/:id of iteration A: empty text silently redirects back
to the post, a negative score redirects back with the error=negative
query flag, otherwise the reply row is inserted. -/
def replyA (score : String → Int) (sess : Session) (subId : Nat)
    (replytext : String) (db : DB) (now fresh : Nat) : DB × Response :=
  if !sess.isLoggedIn then (db, Response.redirect "/login")
  else if jsEmpty replytext then (db, Response.redirect (postPath subId))
  else if score replytext < 0 then (db, Response.redirect (postPathNeg subId))
  else
    ({ db with replies := db.replies ++
        [⟨fresh, subId, some sess.user.userid, replytext, false, now⟩] },
     Response.redirect (postPath subId))

/-- POST /reply/:id of iteration B: as iteration A but with no sentiment
filter. -/
def replyB (sess : Session) (subId : Nat) (replytext : String) (db : DB)
    (now fresh : Nat) : DB × Response :=
  if !sess.isLoggedIn then (db, Response.redirect "/login")
  else if jsEmpty replytext then (db, Response.redirect (postPath subId))
  else
    ({ db with replies := db.replies ++
        [⟨fresh, subId, some sess.user.userid, replytext, false, now⟩] },
     Response.redirect (postPath subId))

/-- POST /reply/:id of the unnamed full-app iteration: empty text
silently redirects back, a negative score re-renders the post page with
an inline error after re-reading the unchanged database, otherwise the
reply row is inserted (replynegativestatus left to its column default,
false). -/
def replyC (score : String → Int) (sess : Session) (subId : Nat)
    (replytext : String) (db : DB) (now fresh : Nat) : DB × Response :=
  if !sess.isLoggedIn then (db, Response.redirect "/login")
  else if jsEmpty replytext then (db, Response.redirect (postPath subId))
  else if score replytext < 0 then
    (db, Response.render "post"
      "Oops! Your reply is too negative! Please keep it positive (:")
  else
    ({ db with replies := db.replies ++
        [⟨fresh, subId, some sess.user.userid, replytext, false, now⟩] },
     Response.redirect (postPath subId))

/-! ## Reactions (POST /react, POST /unreact) -/

/-- The number of reaction rows held by a (submission, user) pair. -/
def pairCount (s u : Nat) (rs : List ReactionRow) : Nat :=
  (rs.filter (fun r => r.subid == s && r.userid == u)).length

/-- The embedding of the reaction upsert statement
INSERT INTO subreactions ... ON CONFLICT (subid, userid)
DO UPDATE SET reactionid = EXCLUDED.reactionid, reactiondate = NOW():
under the unique index on (subid, userid), rows already holding the
pair are updated in place, otherwise a fresh row is appended. -/
def reactUpsert (s u rid now : Nat) (rs : List ReactionRow) :
    List ReactionRow :=
  if rs.any (fun r => r.subid == s && r.userid == u) then
    rs.map (fun r =>
      if r.subid == s && r.userid == u then
        { r with reactionid := rid, reactiondate := now }
      else r)
  else rs ++ [⟨s, u, rid, now⟩]

/-- POST /react of index.js (both iterations): login check, presence
check on the body fields (they arrive as strings, so presence means a
nonempty value), then the upsert, then a redirect back to the referrer
on success and failure alike. -/
def reactA (sess : Session) (subid? reactionid? : Option Nat) (db : DB)
    (now : Nat) (referrer : Option String) : DB × Response :=
  if !sess.isLoggedIn then (db, Response.httpStatus 401 "Login required")
  else
    match subid?, reactionid? with
    | some s, some rid =>
        ({ db with subreactions :=
            reactUpsert s sess.user.userid rid now db.subreactions },
         redirectBack referrer)
    | _, _ => (db, Response.httpStatus 400 "subid and reactionid required")

/-- POST /unreact of index.js (both iterations): login check, then
delete the rows of the (submission, user) pair, then redirect back to
the referrer whether anything was deleted or not. -/
def unreactA (sess : Session) (subId : Nat) (db : DB)
    (referrer : Option String) : DB × Response :=
  if !sess.isLoggedIn then (db, Response.redirect "/login")
  else
    ({ db with subreactions := (db.subreactions.filter
        (fun r => !(r.subid == subId && r.userid == sess.user.userid))) },
     redirectBack referrer)

/-! ## Deletion (POST /deletePost/:id, POST /deleteReply/:id) -/

/-- POST /deletePost/:id of index.js (both iterations carry the same
code): not-found redirects to the feed, a non-owner non-manager actor
gets a 403 send, and an owner or manager deletes the submission, which
cascades to its replies and reactions per the schema. -/
def deletePostA (sess : Session) (postId : Nat) (db : DB) : DB × Response :=
  if !sess.isLoggedIn then (db, Response.redirect "/login")
  else
    match db.submissions.find? (fun s => s.subid == postId) with
    | none => (db, Response.redirect "/feed")
    | some post =>
        if !(post.userid == some sess.user.userid) && !sess.user.manager then
          (db, Response.httpStatus 403 "Not authorized to delete this post")
        else
          ({ db with
              submissions := db.submissions.filter
                (fun s => !(s.subid == postId)),
              replies := db.replies.filter (fun r => !(r.subid == postId)),
              subreactions := db.subreactions.filter
                (fun r => !(r.subid == postId)) },
           Response.redirect "/feed")

/-- POST /deleteReply/:id of the unnamed full-app iteration: not-found
redirects to the feed, a non-owner non-manager actor gets a 403 send,
and an owner or manager deletes the reply row and is redirected to its
post. -/
def deleteReplyC (sess : Session) (replyId : Nat) (db : DB) : DB × Response :=
  if !sess.isLoggedIn then (db, Response.redirect "/login")
  else
    match db.replies.find? (fun r => r.replyid == replyId) with
    | none => (db, Response.redirect "/feed")
    | some reply =>
        if !(reply.userid == some sess.user.userid) && !sess.user.manager then
          (db, Response.httpStatus 403 "Not authorized")
        else
          ({ db with replies := (db.replies.filter
              (fun r => !(r.replyid == replyId))) },
           Response.redirect (postPath reply.subid))

/-! ## Feed listing and search -/

/-- The feed ordering relation: ORDER BY subdate DESC. -/
def dateGe (a b : SubmissionRow) : Prop := b.subdate ≤ a.subdate

instance : DecidableRel dateGe := fun _ _ => Nat.decLe _ _

/-- Sorts submissions newest first (a stable sort, as SQL ORDER BY). -/
def sortFeed (l : List SubmissionRow) : List SubmissionRow :=
  l.insertionSort dateGe

/-- GET /feed of iteration A: every submission, newest first. -/
def feedA (db : DB) : List SubmissionRow := sortFeed db.submissions

/-- The author of a submission under the left join on userid. -/
def authorOf (db : DB) (s : SubmissionRow) : Option UserRow :=
  db.users.find? (fun u => s.userid == some u.userid)

/-- The user-mode search predicate: the author's first or last name
contains the query case-insensitively; a submission with no author
matches nothing, as SQL ILIKE on NULL is not true. -/
def userNameMatches (db : DB) (q : String) (s : SubmissionRow) : Bool :=
  match authorOf db s with
  | some u => containsCI q u.userfirstname || containsCI q u.userlastname
  | none => false

/-- Truthiness of the parsed reaction query parameter:
reaction ? parseInt(reaction) : null is truthy iff it parsed to a
nonzero number. -/
def reactionTruthy (o : Option Nat) : Bool :=
  match o with
  | some n => n != 0
  | none => false

/-- GET /feed of the unnamed full-app iteration: type defaults to
content, the query is trimmed, and at most one of the three filters
applies to the submission list before the newest-first ordering.
The reaction parameter arrives already parsed: none stands for an
absent, empty or non-numeric value. -/
def feedSearch (ty0 q0 : Option String) (r0 : Option Nat) (db : DB) :
    List SubmissionRow :=
  let ty := jsOrStr ty0 "content"
  let q := jsTrimStr (q0.getD "")
  let f1 := if ty == "content" && !(q == "") then
      db.submissions.filter (fun s => containsCI q s.subtext)
    else db.submissions
  let f2 := if ty == "user" && !(q == "") then
      f1.filter (fun s => userNameMatches db q s)
    else f1
  let f3 := if ty == "reaction" && reactionTruthy r0 then
      f2.filter (fun s => db.subreactions.any
        (fun rr => rr.reactionid == r0.getD 0 && rr.subid == s.subid))
    else f2
  sortFeed f3

/-! ## Feed reaction aggregation -/

/-- A row of the grouped breakdown query: SELECT subid, reactionid,
COUNT(*) AS cnt FROM subreactions GROUP BY subid, reactionid. -/
structure BRow where
  subid : Nat
  reactionid : Nat
  cnt : Nat
deriving DecidableEq

/-- Lookup in a JS object modelled as an association list. -/
def getA {α : Type} (l : List (Nat × α)) (k : Nat) : Option α :=
  (l.find? (fun p => p.1 == k)).map (fun p => p.2)

/-- Key assignment in a JS object modelled as an association list:
overwrite in place when the key exists, append otherwise. -/
def setA {α : Type} (l : List (Nat × α)) (k : Nat) (v : α) :
    List (Nat × α) :=
  if l.any (fun p => p.1 == k) then
    l.map (fun p => if p.1 == k then (k, v) else p)
  else l ++ [(k, v)]

/-- The keys of an association list. -/
def keysOf {α : Type} (l : List (Nat × α)) : List Nat := l.map (fun p => p.1)

/-- The sum of the values of an association list. -/
def sumVals (l : List (Nat × Nat)) : Nat := (l.map (fun p => p.2)).sum

/-- The totals and breakdown objects the feed handler builds. -/
structure FeedAgg where
  totals : List (Nat × Nat)
  breakdown : List (Nat × List (Nat × Nat))
deriving DecidableEq

/-- One step of the forEach over the grouped breakdown rows:
breakdown[sid][rid] = cnt and totals[sid] = (totals[sid] || 0) + cnt. -/
def feedStep (st : FeedAgg) (r : BRow) : FeedAgg :=
  let inner := (getA st.breakdown r.subid).getD []
  { totals := setA st.totals r.subid
      ((getA st.totals r.subid).getD 0 + r.cnt),
    breakdown := setA st.breakdown r.subid (setA inner r.reactionid r.cnt) }

/-- The aggregation of the grouped breakdown rows into the totals and
breakdown objects (iteration A and the full-app iteration share this
forEach verbatim). -/
def feedAgg (rows : List BRow) : FeedAgg := rows.foldl feedStep ⟨[], []⟩

/-! ## Fixtures used by the concrete witnesses -/

/-- A logged-in session of plain (non-manager) user 1. -/
def sessU1 : Session := ⟨true, ⟨1, false⟩⟩

/-- The empty database. -/
def dbEmpty : DB := ⟨[], [], [], []⟩

/-! ## Claim theorems -/

/-- C7: a request to a protected path (one passing none of the three
public checks: the static-asset prefix, the /post/ prefix, the public
allowlist) with no active session is answered by the middleware itself
with a render of the login view carrying an informational error
message, never an HTTP redirect, while a request to a public path falls
through to the routes regardless of session state, as does any request
with an active session. -/
theorem c7_auth_gate :
    (∀ path, (startsWithStr path "/public" || startsWithStr path "/post/" ||
        publicPaths.contains path) = false →
      authGate path false = GateResult.respond
        (Response.render "login" "Please log in to access that page") ∧
      ∀ loc, authGate path false ≠ GateResult.respond (Response.redirect loc)) ∧
    (∀ path b, (startsWithStr path "/public" || startsWithStr path "/post/" ||
        publicPaths.contains path) = true →
      authGate path b = GateResult.next) ∧
    (∀ path, authGate path true = GateResult.next) := by
  refine ⟨?_, ?_, ?_⟩
  · intro path h
    simp only [Bool.or_eq_false_iff] at h
    obtain ⟨⟨h1, h2⟩, h3⟩ := h
    have h3m : path ∉ publicPaths := by simpa using h3
    refine ⟨by simp [authGate, h1, h2, h3m], ?_⟩
    intro loc hc
    simp [authGate, h1, h2, h3m] at hc
  · intro path b h
    have hd : startsWithStr path "/public" = true ∨
        startsWithStr path "/post/" = true ∨ path ∈ publicPaths := by
      simpa [Bool.or_assoc] using h
    rcases hd with h1 | h2 | h3
    · simp [authGate, h1]
    · cases hx : startsWithStr path "/public" <;> simp [authGate, hx, h2]
    · cases hx : startsWithStr path "/public" <;>
        cases hy : startsWithStr path "/post/" <;>
          simp [authGate, hx, hy, h3]
  · intro path
    cases hx : startsWithStr path "/public" <;>
      cases hy : startsWithStr path "/post/" <;>
        by_cases hz : path ∈ publicPaths <;>
          simp [authGate, hx, hy, hz]

/-- Witness for C7 at the protected path /newpost and the public path
/feed. -/
theorem c7_auth_gate_witness :
    authGate "/newpost" false = GateResult.respond
      (Response.render "login" "Please log in to access that page") ∧
    authGate "/feed" false = GateResult.next :=
  ⟨(c7_auth_gate.1 "/newpost" (by decide)).1,
   c7_auth_gate.2.1 "/feed" false (by decide)⟩

/-- C10: a failed login renders the same generic Invalid login message
whether the email is unknown or the password is wrong for a known
email, in both login implementations, so the two failure causes are
indistinguishable from the response. -/
theorem c10_login_no_enumeration (verify : String → String → Bool) (db : DB)
    (e1 p1 e2 p2 : String)
    (he1 : (e1 == "") = false) (hp1 : (p1 == "") = false)
    (he2 : (e2 == "") = false) (hp2 : (p2 == "") = false)
    (hunknown : ∀ u ∈ db.users, (u.useremail == e1) = false)
    (hwrong : ∀ u ∈ db.users, u.useremail = e2 →
      verify p2 u.userpassword = false) :
    loginA verify e1 p1 db = Response.render "login" "Invalid login" ∧
    loginA verify e2 p2 db = Response.render "login" "Invalid login" ∧
    loginA verify e1 p1 db = loginA verify e2 p2 db ∧
    loginC verify e1 p1 db = Response.render "login" "Invalid login" ∧
    loginC verify e2 p2 db = Response.render "login" "Invalid login" ∧
    loginC verify e1 p1 db = loginC verify e2 p2 db := by
  have h1 : db.users.filter
      (fun u => u.useremail == e1 && verify p1 u.userpassword) = [] := by
    rw [List.filter_eq_nil_iff]
    intro u hu
    simp [hunknown u hu]
  have h2 : db.users.filter
      (fun u => u.useremail == e2 && verify p2 u.userpassword) = [] := by
    rw [List.filter_eq_nil_iff]
    intro u hu
    by_cases hm : u.useremail = e2
    · simp [hwrong u hu hm]
    · simp [hm]
  refine ⟨?_, ?_, ?_, ?_, ?_, ?_⟩ <;>
    simp [loginA, loginC, he1, hp1, he2, hp2, h1, h2]

/-- Witness for C10: one registered user; an unknown email and a wrong
password on the known email give the identical Invalid login render. -/
theorem c10_login_no_enumeration_witness :
    loginA (fun p h => p == "pw" && h == "H") "b@x.com" "pw"
      ⟨[⟨1, "Ann", "Smith", "a@x.com", "H", false⟩], [], [], []⟩ =
      Response.render "login" "Invalid login" ∧
    loginA (fun p h => p == "pw" && h == "H") "a@x.com" "no"
      ⟨[⟨1, "Ann", "Smith", "a@x.com", "H", false⟩], [], [], []⟩ =
      Response.render "login" "Invalid login" := by
  have h := c10_login_no_enumeration (fun p h => p == "pw" && h == "H")
    ⟨[⟨1, "Ann", "Smith", "a@x.com", "H", false⟩], [], [], []⟩
    "b@x.com" "pw" "a@x.com" "no"
    (by decide) (by decide) (by decide) (by decide)
    (by decide) (by decide)
  exact ⟨h.1, h.2.1⟩

/-- C5: with a logged-in session, unreacting a submission holding no
reaction row for the (submission, user) pair leaves the database
unchanged and redirects back to the referrer, and that response is the
very one every unreact with this session and referrer produces, the
successful case included. -/
theorem c5_unreact_noop (sess : Session) (subId : Nat) (db : DB)
    (referrer : Option String)
    (hlog : sess.isLoggedIn = true)
    (hnone : pairCount subId sess.user.userid db.subreactions = 0) :
    unreactA sess subId db referrer = (db, redirectBack referrer) ∧
    ∀ db2, (unreactA sess subId db2 referrer).2 = redirectBack referrer := by
  have hall : ∀ r ∈ db.subreactions,
      (r.subid == subId && r.userid == sess.user.userid) = false := by
    intro r hr
    have h0 : db.subreactions.filter
        (fun r => r.subid == subId && r.userid == sess.user.userid) = [] :=
      List.length_eq_zero.mp hnone
    have := List.filter_eq_nil_iff.mp h0 r hr
    simpa using this
  have hkeep : db.subreactions.filter
      (fun r => !(r.subid == subId && r.userid == sess.user.userid)) =
      db.subreactions := by
    rw [List.filter_eq_self]
    intro r hr
    simp [hall r hr]
  constructor
  · have hr : unreactA sess subId db referrer =
        ({ db with subreactions := (db.subreactions.filter
            (fun r => !(r.subid == subId && r.userid == sess.user.userid))) },
         redirectBack referrer) := by
      simp only [unreactA, hlog]
      rfl
    rw [hr, hkeep]
  · intro db2
    simp [unreactA, hlog]

/-- Witness for C5: user 1 unreacts submission 3 while the only stored
reaction row belongs to another pair. -/
theorem c5_unreact_noop_witness :
    unreactA sessU1 3 ⟨[], [], [], [⟨9, 2, 1, 0⟩]⟩ none =
      (⟨[], [], [], [⟨9, 2, 1, 0⟩]⟩, redirectBack none) :=
  (c5_unreact_noop sessU1 3 ⟨[], [], [], [⟨9, 2, 1, 0⟩]⟩ none
    (by decide) (by decide)).1

/-- Helper: the default feed search, with no type and no query supplied,
applies no filter whatever the reaction parameter holds: it is the
newest-first listing of every submission. -/
theorem feedSearch_default (r0 : Option Nat) (db : DB) :
    feedSearch none none r0 db = sortFeed db.submissions := rfl

/-- C2: a new-submission request by a logged-in user whose nonempty text
scores nonnegatively is inserted with subnegativestatus false and the
server-assigned timestamp, the caller is redirected to the feed, and
the inserted row is listed by the feed afterwards; this holds in
iteration A and in the full-app iteration alike. -/
theorem c2_accepted_post_persisted (sc : String → Int) (sess : Session)
    (t : String) (db : DB) (now fresh : Nat)
    (hlog : sess.isLoggedIn = true)
    (hne : jsEmpty t = false)
    (hscore : ¬ sc t < 0) :
    newpostA sc sess t db now fresh =
      ({ db with submissions := db.submissions ++
          [⟨fresh, some sess.user.userid, t, false, now⟩] },
       Response.redirect "/feed") ∧
    (⟨fresh, some sess.user.userid, t, false, now⟩ : SubmissionRow) ∈
      feedA (newpostA sc sess t db now fresh).1 ∧
    newpostC sc sess t db now fresh =
      ({ db with submissions := db.submissions ++
          [⟨fresh, some sess.user.userid, t, false, now⟩] },
       Response.redirect "/feed") ∧
    ∀ r0, (⟨fresh, some sess.user.userid, t, false, now⟩ : SubmissionRow) ∈
      feedSearch none none r0 (newpostC sc sess t db now fresh).1 := by
  have hA : newpostA sc sess t db now fresh =
      ({ db with submissions := db.submissions ++
          [⟨fresh, some sess.user.userid, t, false, now⟩] },
       Response.redirect "/feed") := by
    simp [newpostA, hlog, hne, hscore]
  have hC : newpostC sc sess t db now fresh =
      ({ db with submissions := db.submissions ++
          [⟨fresh, some sess.user.userid, t, false, now⟩] },
       Response.redirect "/feed") := by
    simp [newpostC, hne, hscore]
  refine ⟨hA, ?_, hC, ?_⟩
  · rw [hA]
    simp [feedA, sortFeed, List.mem_insertionSort]
  · intro r0
    rw [hC, feedSearch_default]
    simp [sortFeed, List.mem_insertionSort]

/-- Witness for C2: user 1 posts a positively scored text into the empty
database; the row is stored and listed by the feed. -/
theorem c2_accepted_post_persisted_witness :
    newpostA (fun _ => (1 : Int)) sessU1 "Great news today!" dbEmpty 3 1 =
      ({ dbEmpty with submissions := dbEmpty.submissions ++
          [⟨1, some 1, "Great news today!", false, 3⟩] },
       Response.redirect "/feed") ∧
    (⟨1, some 1, "Great news today!", false, 3⟩ : SubmissionRow) ∈
      feedA (newpostA (fun _ => (1 : Int)) sessU1 "Great news today!"
        dbEmpty 3 1).1 := by
  have h := c2_accepted_post_persisted (fun _ => (1 : Int)) sessU1
    "Great news today!" dbEmpty 3 1 rfl (by decide) (by decide)
  exact ⟨h.1, h.2.1⟩

/-- Counterexample to C1: the second iteration of index.js applies no
moderation filter, so a logged-in user posting a text the analyzer
scores negative (the spec uses this very text as its assumed-negative
example) gets the row persisted and the success redirect, not a
rejection. -/
theorem c1_counterexample :
    (fun t => if t == "This is terrible and awful" then (-1 : Int) else 0)
      "This is terrible and awful" < 0 ∧
    newpostB sessU1 "This is terrible and awful" dbEmpty 7 1 =
      ({ dbEmpty with submissions :=
          [⟨1, some 1, "This is terrible and awful", false, 7⟩] },
       Response.redirect "/feed") := by
  exact ⟨by decide, by decide⟩

/-- C1 amended: in the iterations that implement the moderation filter
(iteration A of index.js and the unnamed full-app iteration), every
new-submission and new-reply request whose nonempty text scores below
zero is rejected: the database is unchanged and an error is surfaced
(an error render for posts, the error=negative redirect or an error
render for replies); the second iteration of index.js has no filter and
persists regardless of score. -/
theorem c1_negative_rejected_amended (sc : String → Int) (sess : Session)
    (subId : Nat) (t : String) (db : DB) (now fresh : Nat)
    (hlog : sess.isLoggedIn = true)
    (hne : jsEmpty t = false)
    (hneg : sc t < 0) :
    newpostA sc sess t db now fresh =
      (db, Response.render "newPost"
        "Oops! We only allow Good News here. Your post was detected as negative.") ∧
    newpostC sc sess t db now fresh =
      (db, Response.render "newPost" "Oops! Only good news allowed.") ∧
    replyA sc sess subId t db now fresh =
      (db, Response.redirect (postPathNeg subId)) ∧
    replyC sc sess subId t db now fresh =
      (db, Response.render "post"
        "Oops! Your reply is too negative! Please keep it positive (:") := by
  refine ⟨?_, ?_, ?_, ?_⟩ <;>
    simp [newpostA, newpostC, replyA, replyC, hlog, hne, hneg]

/-- Witness for the amended C1 at a concrete negative-scoring text. -/
theorem c1_negative_rejected_amended_witness :
    newpostA (fun _ => (-1 : Int)) sessU1 "x" dbEmpty 0 0 =
      (dbEmpty, Response.render "newPost"
        "Oops! We only allow Good News here. Your post was detected as negative.") ∧
    replyA (fun _ => (-1 : Int)) sessU1 5 "x" dbEmpty 0 0 =
      (dbEmpty, Response.redirect (postPathNeg 5)) := by
  have h := c1_negative_rejected_amended (fun _ => (-1 : Int)) sessU1 5 "x"
    dbEmpty 0 0 rfl (by decide) (by decide)
  exact ⟨h.1, h.2.2.1⟩

/-- Counterexample to C3: an all-whitespace reply is indeed rejected,
but the response is a bare redirect back to the post carrying no
message at all, not the distinct content-cannot-be-empty message the
claim asserts for replies. -/
theorem c3_counterexample :
    jsEmpty " " = true ∧
    replyA (fun _ => (0 : Int)) sessU1 5 " " dbEmpty 0 0 =
      (dbEmpty, Response.redirect (postPath 5)) ∧
    mentionsEmpty (Response.redirect (postPath 5)) = false := by
  exact ⟨by decide, by decide, rfl⟩

/-- C3 amended: empty or whitespace-only text is rejected before the
sentiment analyzer is consulted and nothing is persisted, in every
iteration; posts are rejected with the distinct
Post content cannot be empty message, while replies are rejected
silently with a plain redirect back to the post.  Replacing the score
function never changes the outcome, so the analyzer is not invoked. -/
theorem c3_empty_text_amended (sc sc2 : String → Int) (sess : Session)
    (subId : Nat) (t : String) (db : DB) (now fresh : Nat)
    (hlog : sess.isLoggedIn = true)
    (hemp : jsEmpty t = true) :
    newpostA sc sess t db now fresh =
      (db, Response.render "newPost" "Post content cannot be empty.") ∧
    newpostB sess t db now fresh =
      (db, Response.render "newPost" "Post content cannot be empty.") ∧
    newpostC sc sess t db now fresh =
      (db, Response.render "newPost" "Post content cannot be empty.") ∧
    newpostA sc sess t db now fresh = newpostA sc2 sess t db now fresh ∧
    newpostC sc sess t db now fresh = newpostC sc2 sess t db now fresh ∧
    replyA sc sess subId t db now fresh =
      (db, Response.redirect (postPath subId)) ∧
    replyB sess subId t db now fresh =
      (db, Response.redirect (postPath subId)) ∧
    replyC sc sess subId t db now fresh =
      (db, Response.redirect (postPath subId)) ∧
    replyA sc sess subId t db now fresh = replyA sc2 sess subId t db now fresh ∧
    replyC sc sess subId t db now fresh = replyC sc2 sess subId t db now fresh := by
  refine ⟨?_, ?_, ?_, ?_, ?_, ?_, ?_, ?_, ?_, ?_⟩ <;>
    simp [newpostA, newpostB, newpostC, replyA, replyB, replyC, hlog, hemp]

/-- Witness for the amended C3 at the whitespace-only text. -/
theorem c3_empty_text_amended_witness :
    newpostA (fun _ => (0 : Int)) sessU1 "  " dbEmpty 0 0 =
      (dbEmpty, Response.render "newPost" "Post content cannot be empty.") ∧
    replyB sessU1 5 "  " dbEmpty 0 0 =
      (dbEmpty, Response.redirect (postPath 5)) := by
  have h := c3_empty_text_amended (fun _ => (0 : Int)) (fun _ => (1 : Int))
    sessU1 5 "  " dbEmpty 0 0 rfl (by decide)
  exact ⟨h.1, h.2.2.2.2.2.2.1⟩

/-- C8: a delete-submission or delete-reply request by a logged-in user
who is neither the author nor a manager leaves the database unchanged
and is answered with the 403 authorization-denied send, which differs
from the not-found outcome (a redirect to the feed); an owner or a
manager does delete the targeted row. -/
theorem c8_delete_authorization (sess : Session) (db : DB) :
    (∀ postId post, sess.isLoggedIn = true →
      db.submissions.find? (fun s => s.subid == postId) = some post →
      (post.userid == some sess.user.userid) = false →
      sess.user.manager = false →
      deletePostA sess postId db =
        (db, Response.httpStatus 403 "Not authorized to delete this post")) ∧
    (∀ postId, sess.isLoggedIn = true →
      db.submissions.find? (fun s => s.subid == postId) = none →
      deletePostA sess postId db = (db, Response.redirect "/feed")) ∧
    (∀ code body loc, Response.httpStatus code body ≠ Response.redirect loc) ∧
    (∀ postId post, sess.isLoggedIn = true →
      db.submissions.find? (fun s => s.subid == postId) = some post →
      ((post.userid == some sess.user.userid) = true ∨
        sess.user.manager = true) →
      (∀ s ∈ (deletePostA sess postId db).1.submissions,
        (s.subid == postId) = false) ∧
      (deletePostA sess postId db).2 = Response.redirect "/feed") ∧
    (∀ replyId reply, sess.isLoggedIn = true →
      db.replies.find? (fun r => r.replyid == replyId) = some reply →
      (reply.userid == some sess.user.userid) = false →
      sess.user.manager = false →
      deleteReplyC sess replyId db =
        (db, Response.httpStatus 403 "Not authorized")) ∧
    (∀ replyId reply, sess.isLoggedIn = true →
      db.replies.find? (fun r => r.replyid == replyId) = some reply →
      ((reply.userid == some sess.user.userid) = true ∨
        sess.user.manager = true) →
      (∀ r ∈ (deleteReplyC sess replyId db).1.replies,
        (r.replyid == replyId) = false) ∧
      (deleteReplyC sess replyId db).2 =
        Response.redirect (postPath reply.subid)) := by
  refine ⟨?_, ?_, ?_, ?_, ?_, ?_⟩
  · intro postId post hlog hfind hown hmgr
    simp [deletePostA, hlog, hfind, hown, hmgr]
  · intro postId hlog hfind
    simp [deletePostA, hlog, hfind]
  · intro code body loc h
    cases h
  · intro postId post hlog hfind hallow
    have hcond : (!(post.userid == some sess.user.userid) &&
        !sess.user.manager) = false := by
      rcases hallow with h | h <;> simp [h]
    constructor
    · intro s hs
      have hmem : s ∈ db.submissions.filter
          (fun s => !(s.subid == postId)) := by
        simpa [deletePostA, hlog, hfind, hcond] using hs
      have := (List.mem_filter.mp hmem).2
      simpa using this
    · simp [deletePostA, hlog, hfind, hcond]
  · intro replyId reply hlog hfind hown hmgr
    simp [deleteReplyC, hlog, hfind, hown, hmgr]
  · intro replyId reply hlog hfind hallow
    have hcond : (!(reply.userid == some sess.user.userid) &&
        !sess.user.manager) = false := by
      rcases hallow with h | h <;> simp [h]
    constructor
    · intro r hr
      have hmem : r ∈ db.replies.filter
          (fun r => !(r.replyid == replyId)) := by
        simpa [deleteReplyC, hlog, hfind, hcond] using hr
      have := (List.mem_filter.mp hmem).2
      simpa using this
    · simp [deleteReplyC, hlog, hfind, hcond]

/-- Witness for C8: non-owner non-manager user 1 attempts to delete
submission 5 owned by user 2; the row stays and a 403 is sent, while
the missing submission 6 yields the feed redirect instead. -/
theorem c8_delete_authorization_witness :
    deletePostA sessU1 5 ⟨[], [⟨5, some 2, "hi", false, 0⟩], [], []⟩ =
      (⟨[], [⟨5, some 2, "hi", false, 0⟩], [], []⟩,
       Response.httpStatus 403 "Not authorized to delete this post") ∧
    deletePostA sessU1 6 ⟨[], [⟨5, some 2, "hi", false, 0⟩], [], []⟩ =
      (⟨[], [⟨5, some 2, "hi", false, 0⟩], [], []⟩,
       Response.redirect "/feed") := by
  have h := c8_delete_authorization sessU1
    ⟨[], [⟨5, some 2, "hi", false, 0⟩], [], []⟩
  exact ⟨h.1 5 ⟨5, some 2, "hi", false, 0⟩ rfl (by decide) (by decide)
      (by decide),
    h.2.1 6 rfl (by decide)⟩

/-- Helper: a row matching one (subid, userid) pair cannot match a
different pair. -/
theorem pair_pred_disjoint (a b s u : Nat) (hne : ¬(a = s ∧ b = u))
    (r : ReactionRow) (hp : (r.subid == s && r.userid == u) = true) :
    (r.subid == a && r.userid == b) = false := by
  have h12 : r.subid = s ∧ r.userid = u := by simpa using hp
  rcases h12 with ⟨h1, h2⟩
  subst h1; subst h2
  by_cases ha : r.subid = a
  · have hb : ¬ r.userid = b := fun hb => hne ⟨ha.symm, hb.symm⟩
    simp [ha, hb]
  · simp [ha]

/-- Helper: filtering the conflict-pair rows out of the DO UPDATE map
yields one updated row per previously matching row. -/
theorem upsert_map_filter (s u t n : Nat) :
    ∀ rs : List ReactionRow,
      (rs.map (fun r => if r.subid == s && r.userid == u then
          { r with reactionid := t, reactiondate := n } else r)).filter
          (fun r => r.subid == s && r.userid == u) =
        (rs.filter (fun r => r.subid == s && r.userid == u)).map
          (fun _ => (⟨s, u, t, n⟩ : ReactionRow)) := by
  intro rs
  induction rs with
  | nil => rfl
  | cons r rs ih =>
      by_cases hp : (r.subid == s && r.userid == u) = true
      · have h12 : r.subid = s ∧ r.userid = u := by simpa using hp
        have hX : ({ r with reactionid := t, reactiondate := n } :
            ReactionRow) = ⟨s, u, t, n⟩ := by
          rcases h12 with ⟨h1, h2⟩
          subst h1; subst h2
          rfl
        have hpX : ((s == s) && (u == u)) = true := by simp
        simp only [List.map_cons, hp, if_true, hX, List.filter_cons, hpX, ih]
      · have hp2 : (r.subid == s && r.userid == u) = false := by simpa using hp
        simp only [List.map_cons, hp2, Bool.false_eq_true, if_false,
          List.filter_cons, ih]

/-- Helper: the DO UPDATE map leaves the rows of every other
(subid, userid) pair untouched. -/
theorem filter_map_upsert_other (s u t n a b : Nat)
    (hne : ¬(a = s ∧ b = u)) :
    ∀ rs : List ReactionRow,
      (rs.map (fun r => if r.subid == s && r.userid == u then
          { r with reactionid := t, reactiondate := n } else r)).filter
        (fun r => r.subid == a && r.userid == b) =
      rs.filter (fun r => r.subid == a && r.userid == b) := by
  intro rs
  induction rs with
  | nil => rfl
  | cons r rs ih =>
      by_cases hp : (r.subid == s && r.userid == u) = true
      · have hfab := pair_pred_disjoint a b s u hne r hp
        simp only [List.map_cons, hp, if_true, List.filter_cons, hfab,
          Bool.false_eq_true, if_false, ih]
      · have hp2 : (r.subid == s && r.userid == u) = false := by simpa using hp
        simp only [List.map_cons, hp2, Bool.false_eq_true, if_false,
          List.filter_cons, ih]

/-- Helper: under the at-most-one invariant, the conflict pair holds
exactly the freshly upserted row afterwards. -/
theorem pairCount_le_one_filter (s u : Nat) (rs : List ReactionRow)
    (h : pairCount s u rs ≤ 1) (t n : Nat) :
    (reactUpsert s u t n rs).filter
      (fun r => r.subid == s && r.userid == u) = [⟨s, u, t, n⟩] := by
  rw [reactUpsert]
  by_cases hany : rs.any (fun r => r.subid == s && r.userid == u) = true
  · rw [if_pos hany, upsert_map_filter]
    obtain ⟨r, hr, hpr⟩ := List.any_eq_true.mp hany
    have hmem : r ∈ rs.filter (fun r => r.subid == s && r.userid == u) :=
      List.mem_filter.mpr ⟨hr, hpr⟩
    simp only [pairCount] at h
    have hpos := List.length_pos_of_mem hmem
    have hlen1 : (rs.filter
        (fun r => r.subid == s && r.userid == u)).length = 1 := by omega
    obtain ⟨w, hw⟩ := List.length_eq_one.mp hlen1
    rw [hw]
    rfl
  · rw [if_neg hany, List.filter_append]
    have hnil : rs.filter (fun r => r.subid == s && r.userid == u) = [] := by
      rw [List.filter_eq_nil_iff]
      intro r hr hc
      exact hany (List.any_eq_true.mpr ⟨r, hr, hc⟩)
    rw [hnil]
    simp

/-- Helper: the upsert never changes the row count of a different
(subid, userid) pair. -/
theorem pairCount_upsert_other (s u t n a b : Nat) (rs : List ReactionRow)
    (hne : ¬(a = s ∧ b = u)) :
    pairCount a b (reactUpsert s u t n rs) = pairCount a b rs := by
  rw [reactUpsert]
  by_cases hany : rs.any (fun r => r.subid == s && r.userid == u) = true
  · rw [if_pos hany]
    simp only [pairCount]
    rw [filter_map_upsert_other s u t n a b hne rs]
  · rw [if_neg hany]
    simp only [pairCount, List.filter_append]
    have hfresh : ((⟨s, u, t, n⟩ : ReactionRow).subid == a &&
        (⟨s, u, t, n⟩ : ReactionRow).userid == b) = false :=
      pair_pred_disjoint a b s u hne ⟨s, u, t, n⟩ (by simp)
    simp [hfresh]

/-- C4: under the unique (subid, userid) index the reaction upsert keeps
at most one row per pair, and reacting twice on the same submission
with two types leaves exactly one row for the pair, holding the latest
type and timestamp. -/
theorem c4_reaction_upsert_unique (rs : List ReactionRow)
    (s u t1 n1 t2 n2 : Nat)
    (hinv : ∀ a b, pairCount a b rs ≤ 1) :
    (∀ a b, pairCount a b (reactUpsert s u t1 n1 rs) ≤ 1) ∧
    (reactUpsert s u t2 n2 (reactUpsert s u t1 n1 rs)).filter
      (fun r => r.subid == s && r.userid == u) = [⟨s, u, t2, n2⟩] ∧
    pairCount s u (reactUpsert s u t2 n2 (reactUpsert s u t1 n1 rs)) = 1 := by
  have h1 := pairCount_le_one_filter s u rs (hinv s u) t1 n1
  have hinv2 : ∀ a b, pairCount a b (reactUpsert s u t1 n1 rs) ≤ 1 := by
    intro a b
    by_cases hab : a = s ∧ b = u
    · rcases hab with ⟨ha, hb⟩
      subst ha; subst hb
      simp [pairCount, h1]
    · rw [pairCount_upsert_other s u t1 n1 a b rs hab]
      exact hinv a b
  have h2 := pairCount_le_one_filter s u _ (hinv2 s u) t2 n2
  refine ⟨hinv2, h2, ?_⟩
  simp [pairCount, h2]

/-- Witness for C4: user 2 reacts on submission 1 with type 7 and then
type 9; exactly one row remains for the pair, holding type 9. -/
theorem c4_reaction_upsert_unique_witness :
    (reactUpsert 1 2 9 1 (reactUpsert 1 2 7 0 [])).filter
      (fun r => r.subid == 1 && r.userid == 2) = [⟨1, 2, 9, 1⟩] ∧
    pairCount 1 2 (reactUpsert 1 2 9 1 (reactUpsert 1 2 7 0 [])) = 1 := by
  have h := c4_reaction_upsert_unique [] 1 2 7 0 9 1
    (fun a b => by simp [pairCount])
  exact ⟨h.2.1, h.2.2⟩

/-- C9: the feed search narrows by exactly one mode per request:
content mode keeps the submissions whose text contains the trimmed
query case-insensitively, user mode keeps those whose author first or
last name matches it, reaction mode keeps exactly those having at least
one reaction of the given type, and the default request (no type, no
query) applies no filtering at all, whatever the reaction parameter
carries. -/
theorem c9_feed_search_modes (db : DB) :
    (∀ q0 r0 s, (jsTrimStr q0 == "") = false →
      (s ∈ feedSearch (some "content") (some q0) r0 db ↔
        s ∈ db.submissions ∧ containsCI (jsTrimStr q0) s.subtext = true)) ∧
    (∀ q0 r0 s, (jsTrimStr q0 == "") = false →
      (s ∈ feedSearch (some "user") (some q0) r0 db ↔
        s ∈ db.submissions ∧ userNameMatches db (jsTrimStr q0) s = true)) ∧
    (∀ q0 r s, r ≠ 0 →
      (s ∈ feedSearch (some "reaction") q0 (some r) db ↔
        s ∈ db.submissions ∧ db.subreactions.any
          (fun rr => rr.reactionid == r && rr.subid == s.subid) = true)) ∧
    (∀ r0, feedSearch none none r0 db = sortFeed db.submissions) ∧
    (∀ r0 s, s ∈ feedSearch none none r0 db ↔ s ∈ db.submissions) := by
  refine ⟨?_, ?_, ?_, ?_, ?_⟩
  · intro q0 r0 s hq
    simp [feedSearch, jsOrStr, hq, sortFeed, List.mem_insertionSort,
      List.mem_filter]
  · intro q0 r0 s hq
    simp [feedSearch, jsOrStr, hq, sortFeed, List.mem_insertionSort,
      List.mem_filter]
  · intro q0 r s hr
    cases q0 with
    | none =>
        simp [feedSearch, jsOrStr, reactionTruthy, hr, sortFeed,
          List.mem_insertionSort, List.mem_filter]
    | some q =>
        simp [feedSearch, jsOrStr, reactionTruthy, hr, sortFeed,
          List.mem_insertionSort, List.mem_filter]
  · intro r0
    exact feedSearch_default r0 db
  · intro r0 s
    rw [feedSearch_default]
    simp [sortFeed, List.mem_insertionSort]

/-- Witness for C9: a content search for great finds the matching
submission in a one-row database. -/
theorem c9_feed_search_modes_witness :
    (⟨1, some 1, "Great News Today", false, 5⟩ : SubmissionRow) ∈
      feedSearch (some "content") (some "great") none
        ⟨[], [⟨1, some 1, "Great News Today", false, 5⟩], [], []⟩ ↔
    (⟨1, some 1, "Great News Today", false, 5⟩ : SubmissionRow) ∈
      ([⟨1, some 1, "Great News Today", false, 5⟩] : List SubmissionRow) ∧
    containsCI (jsTrimStr "great") "Great News Today" = true :=
  (c9_feed_search_modes
    ⟨[], [⟨1, some 1, "Great News Today", false, 5⟩], [], []⟩).1
    "great" none ⟨1, some 1, "Great News Today", false, 5⟩ (by decide)

/-- Helper: key membership in an association list agrees with the any
test the JS object-set performs. -/
theorem keys_mem_any {α : Type} (l : List (Nat × α)) (k : Nat) :
    k ∈ keysOf l ↔ l.any (fun p => p.1 == k) = true := by
  simp [keysOf, List.any_eq_true, List.mem_map, beq_iff_eq]

/-- Helper: assigning an absent key appends the binding. -/
theorem setA_fresh {α : Type} (l : List (Nat × α)) (k : Nat) (v : α)
    (h : l.any (fun p => p.1 == k) = false) :
    setA l k v = l ++ [(k, v)] := by
  rw [setA, if_neg]
  simp [h]

/-- Helper: association-list lookup on a cons cell. -/
theorem getA_cons {α : Type} (p : Nat × α) (l : List (Nat × α)) (k : Nat) :
    getA (p :: l) k = if (p.1 == k) = true then some p.2 else getA l k := by
  rw [getA, List.find?_cons]
  by_cases hp : (p.1 == k) = true
  · simp [hp]
  · have hp2 : (p.1 == k) = false := by simpa using hp
    simp [hp2, getA]

/-- Helper: lookup misses when no binding carries the key. -/
theorem getA_eq_none_of_any_false {α : Type} (l : List (Nat × α)) (k : Nat)
    (h : l.any (fun p => p.1 == k) = false) : getA l k = none := by
  have hn : l.find? (fun p => p.1 == k) = none := by
    rw [List.find?_eq_none]
    intro p hp hc
    have hcontra : l.any (fun p => p.1 == k) = true :=
      List.any_eq_true.mpr ⟨p, hp, hc⟩
    rw [h] at hcontra
    exact absurd hcontra (by decide)
  rw [getA, hn]
  rfl

/-- Helper: lookup passes over a prefix holding no binding for the key. -/
theorem getA_append_none {α : Type} (l1 l2 : List (Nat × α)) (k : Nat)
    (h : l1.find? (fun p => p.1 == k) = none) :
    getA (l1 ++ l2) k = getA l2 k := by
  rw [getA, List.find?_append, h]
  rfl

/-- Helper: looking the overwritten key up in the in-place update map. -/
theorem getA_map_key {α : Type} (k : Nat) (v : α) :
    ∀ l : List (Nat × α),
      getA (l.map (fun p => if p.1 == k then (k, v) else p)) k =
        if l.any (fun p => p.1 == k) then some v else none := by
  intro l
  induction l with
  | nil => rfl
  | cons p l ih =>
      rw [List.map_cons]
      by_cases hp : (p.1 == k) = true
      · rw [if_pos hp, getA_cons]
        simp [List.any_cons, hp]
      · have hp2 : (p.1 == k) = false := by simpa using hp
        rw [if_neg hp, getA_cons, if_neg (by simp [hp2]), List.any_cons, hp2,
          Bool.false_or]
        exact ih

/-- Helper: looking a different key up in the in-place update map. -/
theorem getA_map_other {α : Type} (k : Nat) (v : α) (k2 : Nat)
    (hne : ¬ k2 = k) :
    ∀ l : List (Nat × α),
      getA (l.map (fun p => if p.1 == k then (k, v) else p)) k2 =
        getA l k2 := by
  intro l
  induction l with
  | nil => rfl
  | cons p l ih =>
      rw [List.map_cons, getA_cons, getA_cons]
      by_cases hp : (p.1 == k) = true
      · have hpk : p.1 = k := by simpa using hp
        have hk2 : ((k : Nat) == k2) = false := by
          simp only [beq_eq_false_iff_ne, ne_eq]
          exact fun h => hne h.symm
        rw [if_pos hp]
        rw [if_neg (by simpa using hk2), if_neg (by simp [hpk, hk2])]
        exact ih
      · rw [if_neg hp]
        by_cases hq : (p.1 == k2) = true
        · rw [if_pos hq, if_pos hq]
        · rw [if_neg hq, if_neg hq]
          exact ih

/-- Helper: looking the assigned key up after a JS object assignment. -/
theorem getA_setA_self {α : Type} (l : List (Nat × α)) (k : Nat) (v : α) :
    getA (setA l k v) k = some v := by
  rw [setA]
  by_cases h : l.any (fun p => p.1 == k) = true
  · rw [if_pos h, getA_map_key, if_pos h]
  · have h2 : l.any (fun p => p.1 == k) = false := by
      cases hx : l.any (fun p => p.1 == k) with
      | true => exact absurd hx h
      | false => rfl
    have hn : l.find? (fun p => p.1 == k) = none := by
      rw [List.find?_eq_none]
      intro p hp hc
      have hcontra : l.any (fun p => p.1 == k) = true :=
        List.any_eq_true.mpr ⟨p, hp, hc⟩
      rw [h2] at hcontra
      exact absurd hcontra (by decide)
    rw [if_neg h, getA_append_none l _ k hn, getA_cons]
    simp

/-- Helper: looking a different key up after a JS object assignment. -/
theorem getA_setA_other {α : Type} (l : List (Nat × α)) (k : Nat) (v : α)
    (k2 : Nat) (hne : ¬ k2 = k) :
    getA (setA l k v) k2 = getA l k2 := by
  rw [setA]
  by_cases h : l.any (fun p => p.1 == k) = true
  · rw [if_pos h, getA_map_other k v k2 hne]
  · rw [if_neg h]
    have hk2 : (((k, v) : Nat × α).1 == k2) = false := by
      simp only [beq_eq_false_iff_ne, ne_eq]
      exact fun hh => hne hh.symm
    cases hf : l.find? (fun p => p.1 == k2) with
    | some p =>
        rw [getA, List.find?_append, hf, getA, hf]
        rfl
    | none =>
        rw [getA, List.find?_append, hf, getA, hf]
        simp [List.find?_cons, hk2]

/-- Helper: the keys after a JS object assignment. -/
theorem keys_setA_mem {α : Type} (l : List (Nat × α)) (k : Nat) (v : α)
    (k2 : Nat) :
    k2 ∈ keysOf (setA l k v) ↔ (k2 ∈ keysOf l ∨ k2 = k) := by
  rw [setA]
  by_cases h : l.any (fun p => p.1 == k) = true
  · rw [if_pos h]
    have hkeys : ∀ l2 : List (Nat × α),
        keysOf (l2.map (fun p => if p.1 == k then (k, v) else p)) =
          keysOf l2 := by
      intro l2
      induction l2 with
      | nil => rfl
      | cons p l2 ih =>
          by_cases hp : (p.1 == k) = true
          · have hpk : p.1 = k := by simpa using hp
            simp only [keysOf, List.map_cons] at ih ⊢
            rw [if_pos hp]
            simp only [ih, hpk]
          · simp only [keysOf, List.map_cons] at ih ⊢
            rw [if_neg hp]
            simp only [ih]
    rw [hkeys l]
    constructor
    · exact fun hm => Or.inl hm
    · rintro (hm | rfl)
      · exact hm
      · exact (keys_mem_any l k2).mpr h
  · rw [if_neg h]
    simp [keysOf, List.mem_append]

/-- Helper: appending a binding adds its value to the sum. -/
theorem sumVals_append (l : List (Nat × Nat)) (k v : Nat) :
    sumVals (l ++ [(k, v)]) = sumVals l + v := by
  simp [sumVals]

/-- The invariant carried through the forEach over the grouped rows:
per-submission totals equal the sums of the per-submission breakdown
values, and the breakdown holds exactly the keys of the processed
(subid, reactionid) pairs. -/
def InvP (st : FeedAgg) (P : List (Nat × Nat)) : Prop :=
  (∀ sid, (getA st.totals sid).getD 0 =
    sumVals ((getA st.breakdown sid).getD [])) ∧
  (∀ sid rid, rid ∈ keysOf ((getA st.breakdown sid).getD []) ↔
    (sid, rid) ∈ P)

/-- Helper: one feedStep preserves the invariant when the incoming row
is a pair the grouped query has not produced before. -/
theorem invP_step (st : FeedAgg) (P : List (Nat × Nat)) (r : BRow)
    (hI : InvP st P) (hfresh : (r.subid, r.reactionid) ∉ P) :
    InvP (feedStep st r) (P ++ [(r.subid, r.reactionid)]) := by
  obtain ⟨h1, h2⟩ := hI
  have hrid : r.reactionid ∉
      keysOf ((getA st.breakdown r.subid).getD []) :=
    fun hmem => hfresh ((h2 _ _).mp hmem)
  have hany : ((getA st.breakdown r.subid).getD []).any
      (fun p => p.1 == r.reactionid) = false := by
    cases hx : ((getA st.breakdown r.subid).getD []).any
        (fun p => p.1 == r.reactionid) with
    | true => exact absurd ((keys_mem_any _ _).mpr hx) hrid
    | false => rfl
  have hinner : setA ((getA st.breakdown r.subid).getD [])
      r.reactionid r.cnt =
      ((getA st.breakdown r.subid).getD []) ++ [(r.reactionid, r.cnt)] :=
    setA_fresh _ _ _ hany
  constructor
  · intro sid
    by_cases hs : sid = r.subid
    · subst hs
      simp only [feedStep, getA_setA_self, Option.getD_some]
      rw [hinner, sumVals_append, h1 r.subid]
    · simp only [feedStep, getA_setA_other _ _ _ sid hs]
      exact h1 sid
  · intro sid rid
    by_cases hs : sid = r.subid
    · subst hs
      simp only [feedStep, getA_setA_self, Option.getD_some]
      rw [hinner, keysOf, List.map_append]
      constructor
      · intro hm
        rcases List.mem_append.mp hm with hm | hm
        · exact List.mem_append_left _ ((h2 r.subid rid).mp hm)
        · have hr : rid = r.reactionid := by simpa using hm
          exact List.mem_append_right _ (by simp [hr])
      · intro hm
        rcases List.mem_append.mp hm with hm | hm
        · exact List.mem_append_left _ ((h2 r.subid rid).mpr hm)
        · have he : ((r.subid, rid) : Nat × Nat) =
              (r.subid, r.reactionid) := by simpa using hm
          have hr : rid = r.reactionid := congrArg Prod.snd he
          exact List.mem_append_right _ (by simp [hr])
    · simp only [feedStep, getA_setA_other _ _ _ sid hs]
      rw [h2 sid rid]
      constructor
      · exact fun hm => List.mem_append_left _ hm
      · intro hm
        rcases List.mem_append.mp hm with hm | hm
        · exact hm
        · have he : ((sid, rid) : Nat × Nat) =
              (r.subid, r.reactionid) := by simpa using hm
          exact absurd (congrArg Prod.fst he) hs

/-- Helper: the whole fold preserves the invariant over distinct grouped
rows disjoint from the already processed pairs. -/
theorem invP_fold :
    ∀ (rows : List BRow) (st : FeedAgg) (P : List (Nat × Nat)),
      InvP st P →
      (rows.map (fun r => (r.subid, r.reactionid))).Nodup →
      (∀ r ∈ rows, (r.subid, r.reactionid) ∉ P) →
      InvP (rows.foldl feedStep st)
        (P ++ rows.map (fun r => (r.subid, r.reactionid))) := by
  intro rows
  induction rows with
  | nil =>
      intro st P hI _ _
      simpa using hI
  | cons r rows ih =>
      intro st P hI hnd hdisj
      have hstep := invP_step st P r hI (hdisj r (by simp))
      have hnd2 : (rows.map (fun r => (r.subid, r.reactionid))).Nodup :=
        (List.nodup_cons.mp hnd).2
      have hhead : (r.subid, r.reactionid) ∉
          rows.map (fun r => (r.subid, r.reactionid)) :=
        (List.nodup_cons.mp hnd).1
      have hdisj2 : ∀ r2 ∈ rows, (r2.subid, r2.reactionid) ∉
          P ++ [(r.subid, r.reactionid)] := by
        intro r2 hr2 hmem
        rcases List.mem_append.mp hmem with hm | hm
        · exact hdisj r2 (by simp [hr2]) hm
        · have he : ((r2.subid, r2.reactionid) : Nat × Nat) =
              (r.subid, r.reactionid) := by simpa using hm
          exact hhead (he ▸ List.mem_map_of_mem _ hr2)
      have hrec := ih (feedStep st r) (P ++ [(r.subid, r.reactionid)])
        hstep hnd2 hdisj2
      simpa [List.append_assoc] using hrec

/-- C6: for grouped breakdown rows with pairwise-distinct
(subid, reactionid) keys, exactly what the SQL GROUP BY produces, the
total reaction count the feed reports for every submission equals the
sum of that submission's per-type breakdown counts. -/
theorem c6_feed_totals_eq_breakdown_sum (rows : List BRow)
    (hnd : (rows.map (fun r => (r.subid, r.reactionid))).Nodup) :
    ∀ sid, (getA (feedAgg rows).totals sid).getD 0 =
      sumVals ((getA (feedAgg rows).breakdown sid).getD []) := by
  have hbase : InvP ⟨[], []⟩ [] := by
    constructor
    · intro sid
      rfl
    · intro sid rid
      simp [getA, keysOf]
  have h := invP_fold rows ⟨[], []⟩ [] hbase hnd (by simp)
  exact fun sid => h.1 sid

/-- Witness for C6: three grouped rows over two submissions; the total
for submission 1 equals the sum of its two breakdown entries. -/
theorem c6_feed_totals_eq_breakdown_sum_witness :
    (getA (feedAgg [⟨1, 1, 2⟩, ⟨1, 2, 3⟩, ⟨2, 1, 4⟩]).totals 1).getD 0 =
      sumVals ((getA (feedAgg [⟨1, 1, 2⟩, ⟨1, 2, 3⟩, ⟨2, 1, 4⟩]).breakdown
        1).getD []) :=
  c6_feed_totals_eq_breakdown_sum [⟨1, 1, 2⟩, ⟨1, 2, 3⟩, ⟨2, 1, 4⟩]
    (by decide) 1
